import Mathlib

/-!
Verification of the bubbles widget (`bubbleswidget.py`).

The widget state and its event handlers are embedded shallowly: coordinates,
radii and speeds are rationals, the Qt signal emissions are returned as
explicit lists, and the two timers are booleans in the state record.
Randomness (`random.random()` draws) is passed in explicitly as rational
parameters constrained to `[0, 1)`.
-/

/-- A 2D point (`QtCore.QPointF`). -/
structure Pt where
  x : ℚ
  y : ℚ
deriving DecidableEq, Repr

/-- An RGBA color (`QtGui.QColor`); channel values kept exact. -/
structure Color where
  red : ℚ
  green : ℚ
  blue : ℚ
  alpha : ℚ
deriving DecidableEq, Repr

/-- The opaque white used as the gradient highlight stop. -/
def whiteColor : Color := ⟨255, 255, 255, 255⟩

/-- The four `random.random()` draws consumed by one `randomColor()` call. -/
structure ColorDraws where
  dRed : ℚ
  dGreen : ℚ
  dBlue : ℚ
  dAlpha : ℚ
deriving DecidableEq, Repr

/-- Each draw lies in `[0, 1)`, the range of `random.random()`. -/
def ColorDraws.Valid (d : ColorDraws) : Prop :=
  0 ≤ d.dRed ∧ d.dRed < 1 ∧ 0 ≤ d.dGreen ∧ d.dGreen < 1 ∧
  0 ≤ d.dBlue ∧ d.dBlue < 1 ∧ 0 ≤ d.dAlpha ∧ d.dAlpha < 1

/-- `BubblesWidget.randomColor`: red/green/blue `205 + random()*50`,
alpha `91 + random()*100`. -/
def randomColor (d : ColorDraws) : Color :=
  ⟨205 + d.dRed * 50, 205 + d.dGreen * 50, 205 + d.dBlue * 50, 91 + d.dAlpha * 100⟩

/-- The cached radial-gradient brush built by `Bubble.updateBrush`:
center `(radius, radius)`, gradient radius `radius`, focal point
`(radius*0.5, radius*0.5)`, stops at 0 (white), 0.25 (inner), 1 (outer). -/
structure Brush where
  center : Pt
  gradRadius : ℚ
  focal : Pt
  stopZero : Color
  stopQuarter : Color
  stopOne : Color
deriving DecidableEq, Repr

/-- `Bubble.updateBrush`, as a function of the fields it reads. -/
def mkBrush (innerColor outerColor : Color) (radius : ℚ) : Brush :=
  { center := ⟨radius, radius⟩
    gradRadius := radius
    focal := ⟨radius * (1/2), radius * (1/2)⟩
    stopZero := whiteColor
    stopQuarter := innerColor
    stopOne := outerColor }

/-- One bubble (`class Bubble`). -/
structure Bubble where
  position : Pt
  radius : ℚ
  speed : ℚ
  innerColor : Color
  outerColor : Color
  brush : Brush
deriving DecidableEq, Repr

/-- `Bubble.__init__`: stores the fields and computes the initial brush. -/
def Bubble.create (position : Pt) (radius speed : ℚ) (innerColor outerColor : Color) :
    Bubble :=
  { position := position, radius := radius, speed := speed
    innerColor := innerColor, outerColor := outerColor
    brush := mkBrush innerColor outerColor radius }

/-- `self.newBubble.updateBrush()` on an already-constructed bubble. -/
def Bubble.updateBrush (b : Bubble) : Bubble :=
  { b with brush := mkBrush b.innerColor b.outerColor b.radius }

/-- `bubble.position = bubble.position + QPointF(0, -bubble.speed)` in
`animate`. -/
def moveBubble (b : Bubble) : Bubble :=
  { b with position := ⟨b.position.x + 0, b.position.y + (-b.speed)⟩ }

/-- An axis-aligned rectangle (`QtCore.QRectF`): origin plus size. -/
structure RectF where
  x : ℚ
  y : ℚ
  w : ℚ
  h : ℚ
deriving DecidableEq, Repr

/-- `QRectF.intersects` following the Qt implementation: each rectangle is
normalised; empty rectangles intersect nothing; otherwise the open overlap
test on both axes. -/
def rectIntersects (a b : RectF) : Bool :=
  let l1 := a.x + min a.w 0
  let r1 := a.x + max a.w 0
  let l2 := b.x + min b.w 0
  let r2 := b.x + max b.w 0
  if l1 = r1 ∨ l2 = r2 then false
  else if r2 ≤ l1 ∨ r1 ≤ l2 then false
  else
    let t1 := a.y + min a.h 0
    let b1 := a.y + max a.h 0
    let t2 := b.y + min b.h 0
    let b2 := b.y + max b.h 0
    if t1 = b1 ∨ t2 = b2 then false
    else if b2 ≤ t1 ∨ b1 ≤ t2 then false
    else true

/-- The bounding box used in `paintEvent`:
`QRectF(position - (radius, radius), QSizeF(2*radius, 2*radius))`. -/
def boundingRect (b : Bubble) : RectF :=
  ⟨b.position.x - b.radius, b.position.y - b.radius, 2 * b.radius, 2 * b.radius⟩

/-- The two Qt signals the widget emits. -/
inductive Signal where
  | bubbleLeft
  | bubblesRemaining (n : ℤ)
deriving DecidableEq, Repr

/-- Painter commands recorded by the paint handler. -/
inductive PaintCmd where
  | fillBackground (region : RectF) (c1 c2 : Color)
  | drawBubble (b : Bubble)
deriving DecidableEq, Repr

/-- Mouse buttons (`QtCore.Qt.LeftButton` etc.). -/
inductive MouseButton where
  | left
  | right
  | middle
deriving DecidableEq, Repr

/-- The widget state: bubble list, optional pending bubble, the two timers
as running flags, background colors and the current viewport size. -/
structure FieldState where
  bubbles : List Bubble
  newBubble : Option Bubble
  bubbleTimerRunning : Bool
  animationTimerRunning : Bool
  backgroundColor1 : Color
  backgroundColor2 : Color
  width : ℚ
  height : ℚ
deriving DecidableEq, Repr

/-- The keep test in `animate`: `bubble.position.y() + bubble.radius > 0`. -/
def keepBubble (b : Bubble) : Bool :=
  decide (0 < b.position.y + b.radius)

/-- The `for bubble in self.bubbles` loop of `animate`: moves each bubble,
collects survivors, emits `bubbleLeft()` per dropped bubble and remembers in
the flag whether any bubble was dropped. -/
def animateLoop : List Bubble → List Bubble × List Signal × Bool
  | [] => ([], [], false)
  | b :: rest =>
    let b := moveBubble b
    let res := animateLoop rest
    if keepBubble b then
      (b :: res.1, res.2.1, res.2.2)
    else
      (res.1, Signal.bubbleLeft :: res.2.1, true)

/-- `BubblesWidget.animate`: run the loop, install the surviving bubbles and,
if any bubble left, emit `bubblesRemaining(len(self.bubbles))`. -/
def animate (s : FieldState) : FieldState × List Signal :=
  let res := animateLoop s.bubbles
  ({ s with bubbles := res.1 },
   res.2.1 ++ if res.2.2 then [Signal.bubblesRemaining (res.1.length : ℤ)] else [])

/-- The per-bubble loop of `paintEvent`: draw each bubble whose bounding
rectangle intersects the damage region. -/
def paintLoop (region : RectF) : List Bubble → List PaintCmd
  | [] => []
  | b :: rest =>
    (if rectIntersects (boundingRect b) region then [PaintCmd.drawBubble b] else [])
      ++ paintLoop region rest

/-- `BubblesWidget.paintEvent`: fill the damage region with the background
gradient, draw intersecting bubbles in order, then the pending bubble last.
Returns the unchanged state paired with the recorded painter commands. -/
def paintEvent (s : FieldState) (region : RectF) : FieldState × List PaintCmd :=
  (s,
   PaintCmd.fillBackground region s.backgroundColor1 s.backgroundColor2 ::
     (paintLoop region s.bubbles ++
       match s.newBubble with
       | some nb => [PaintCmd.drawBubble nb]
       | none => []))

/-- `BubblesWidget.mousePressEvent`: on a left-button press with no pending
bubble, create one at the press point with radius 4.0 and speed
`1.0 + random()*7`, and start the growth timer. -/
def mousePressEvent (s : FieldState) (button : MouseButton) (pos : Pt)
    (dSpeed : ℚ) (c1 c2 : ColorDraws) : FieldState :=
  if button = MouseButton.left ∧ s.newBubble = none then
    { s with
      newBubble := some (Bubble.create pos 4 (1 + dSpeed * 7) (randomColor c1) (randomColor c2))
      bubbleTimerRunning := true }
  else s

/-- `BubblesWidget.mouseMoveEvent`: while a pending bubble exists, move it to
the pointer position. -/
def mouseMoveEvent (s : FieldState) (pos : Pt) : FieldState :=
  match s.newBubble with
  | some nb => { s with newBubble := some { nb with position := pos } }
  | none => s

/-- `BubblesWidget.mouseReleaseEvent`: if a pending bubble exists, append it
to the collection, clear it, stop the growth timer and emit
`bubblesRemaining(len(self.bubbles))`. -/
def mouseReleaseEvent (s : FieldState) : FieldState × List Signal :=
  match s.newBubble with
  | some nb =>
    ({ s with
        bubbles := s.bubbles ++ [nb]
        newBubble := none
        bubbleTimerRunning := false },
     [Signal.bubblesRemaining ((s.bubbles ++ [nb]).length : ℤ)])
  | none => (s, [])

/-- `BubblesWidget.expandBubble`: grow the pending bubble's radius to
`min(radius + 4.0, width/8.0, height/8.0)` and recompute its brush. -/
def expandBubble (s : FieldState) : FieldState :=
  match s.newBubble with
  | some nb =>
    { s with
      newBubble := some
        ({ nb with radius := min (min (nb.radius + 4) (s.width / 8)) (s.height / 8)
         }.updateBrush) }
  | none => s

/-- The `random.random()` draws consumed when `setBubbles` synthesises one
bubble: position x, position y, radius, speed, then two colors. -/
structure Draws where
  dX : ℚ
  dY : ℚ
  dRadius : ℚ
  dSpeed : ℚ
  dInner : ColorDraws
  dOuter : ColorDraws
deriving DecidableEq, Repr

/-- Every draw of the record lies in `[0, 1)`. -/
def Draws.Valid (d : Draws) : Prop :=
  0 ≤ d.dX ∧ d.dX < 1 ∧ 0 ≤ d.dY ∧ d.dY < 1 ∧
  0 ≤ d.dRadius ∧ d.dRadius < 1 ∧ 0 ≤ d.dSpeed ∧ d.dSpeed < 1 ∧
  d.dInner.Valid ∧ d.dOuter.Valid

/-- The bubble synthesised by one iteration of the `while` loop in
`setBubbles`: random position in the viewport, radius `4.0 + random()*20`,
speed `1.0 + random()*7`, random colors, then `updateBrush()`. -/
def mkRandomBubble (wd ht : ℚ) (d : Draws) : Bubble :=
  (Bubble.create ⟨d.dX * wd, d.dY * ht⟩ (4 + d.dRadius * 20) (1 + d.dSpeed * 7)
    (randomColor d.dInner) (randomColor d.dOuter)).updateBrush

/-- The `while len(self.bubbles) < value` loop of `setBubbles`, appending one
synthesised bubble per iteration; `idx` indexes the draw stream. -/
def bubbleLoop (wd ht : ℚ) (draws : ℕ → Draws) (idx : ℕ) (bs : List Bubble)
    (value : ℕ) : List Bubble :=
  if bs.length < value then
    bubbleLoop wd ht draws (idx + 1) (bs ++ [mkRandomBubble wd ht (draws idx)]) value
  else bs
termination_by value - bs.length
decreasing_by simp [List.length_append]; omega

/-- `BubblesWidget.setBubbles`: clamp the target to `max(0, value)`, append
random bubbles while below it, truncate to the first `value` entries, and emit
`bubblesRemaining(value)`. -/
def setBubbles (s : FieldState) (value : ℤ) (draws : ℕ → Draws) :
    FieldState × List Signal :=
  let v := max 0 value
  ({ s with bubbles := (bubbleLoop s.width s.height draws 0 s.bubbles v.toNat).take v.toNat },
   [Signal.bubblesRemaining v])

/-- `BubblesWidget.setColor1`. -/
def setColor1 (s : FieldState) (c : Color) : FieldState :=
  { s with backgroundColor1 := c }

/-- `BubblesWidget.setColor2`. -/
def setColor2 (s : FieldState) (c : Color) : FieldState :=
  { s with backgroundColor2 := c }

/-- `BubblesWidget.start`: start the animation timer. -/
def startAnimation (s : FieldState) : FieldState :=
  { s with animationTimerRunning := true }

/-- `BubblesWidget.stop`: stop the animation timer. -/
def stopAnimation (s : FieldState) : FieldState :=
  { s with animationTimerRunning := false }

/-- The events the widget can receive. -/
inductive Event where
  | press (button : MouseButton) (pos : Pt) (dSpeed : ℚ) (c1 c2 : ColorDraws)
  | move (pos : Pt)
  | release
  | animationTick
  | growthTick
  | setCount (n : ℤ) (draws : ℕ → Draws)
  | setBg1 (c : Color)
  | setBg2 (c : Color)
  | startCmd
  | stopCmd
  | resize (wd ht : ℚ)

/-- Dispatch one event to the corresponding handler (signals discarded). -/
def step (s : FieldState) : Event → FieldState
  | Event.press button pos dSpeed c1 c2 => mousePressEvent s button pos dSpeed c1 c2
  | Event.move pos => mouseMoveEvent s pos
  | Event.release => (mouseReleaseEvent s).1
  | Event.animationTick => (animate s).1
  | Event.growthTick => expandBubble s
  | Event.setCount n draws => (setBubbles s n draws).1
  | Event.setBg1 c => setColor1 s c
  | Event.setBg2 c => setColor2 s c
  | Event.startCmd => startAnimation s
  | Event.stopCmd => stopAnimation s
  | Event.resize wd ht => { s with width := wd, height := ht }

/-- `BubblesWidget.__init__`: empty collection, no pending bubble, the growth
timer not started, the animation timer started. -/
def initState (bg1 bg2 : Color) (wd ht : ℚ) : FieldState :=
  { bubbles := []
    newBubble := none
    bubbleTimerRunning := false
    animationTimerRunning := true
    backgroundColor1 := bg1
    backgroundColor2 := bg2
    width := wd
    height := ht }

/-- Process a list of events in order. -/
def run (s : FieldState) : List Event → FieldState
  | [] => s
  | e :: es => run (step s e) es

/-! ## Helper lemmas -/

/-- `animateLoop` computes: survivors are the moved bubbles passing the keep
test, one `bubbleLeft` per dropped bubble, and the flag records whether any
bubble was dropped. -/
lemma animateLoop_eq (bs : List Bubble) :
    animateLoop bs =
      ((bs.map moveBubble).filter keepBubble,
       ((bs.map moveBubble).filter (fun b => !keepBubble b)).map
         (fun _ => Signal.bubbleLeft),
       !((bs.map moveBubble).filter (fun b => !keepBubble b)).isEmpty) := by
  induction bs with
  | nil => rfl
  | cons b rest ih =>
      simp only [animateLoop, ih, List.map_cons, List.filter_cons]
      by_cases h : keepBubble (moveBubble b) <;> simp [h]

/-- The bubbles drawn by the paint loop are exactly those whose bounding
rectangles intersect the damage region, in collection order. -/
lemma paintLoop_eq (region : RectF) (bs : List Bubble) :
    paintLoop region bs =
      (bs.filter (fun b => rectIntersects (boundingRect b) region)).map
        PaintCmd.drawBubble := by
  induction bs with
  | nil => rfl
  | cons b rest ih =>
      simp only [paintLoop, ih, List.filter_cons]
      by_cases h : rectIntersects (boundingRect b) region <;> simp [h]

/-- On each bubble, the drop test is the negation of the keep test:
`position.y + radius ≤ 0`. -/
lemma not_keepBubble (b : Bubble) :
    (!keepBubble b) = decide (b.position.y + b.radius ≤ 0) := by
  simp [keepBubble, ← decide_not, not_lt]

/-- The drop-test filter functions agree. -/
lemma not_keepBubble_funext :
    (fun b => !keepBubble b) =
      (fun b : Bubble => decide (b.position.y + b.radius ≤ 0)) :=
  funext not_keepBubble

/-! ## Claims -/

/-- C1: on every animation tick each bubble's vertical coordinate decreases by
exactly its own speed with the horizontal coordinate untouched; after the
update exactly the bubbles with `position.y + radius > 0` are kept, one
`bubbleLeft` signal is emitted per removed bubble (those with
`position.y + radius ≤ 0`), and `bubblesRemaining` is emitted with the new
total iff at least one bubble was removed. -/
theorem animate_tick_spec (s : FieldState) :
    (∀ b : Bubble,
        moveBubble b = { b with position := ⟨b.position.x, b.position.y - b.speed⟩ }) ∧
    (animate s).1 =
      { s with bubbles :=
          ((s.bubbles.map moveBubble).filter
            (fun b => decide (0 < b.position.y + b.radius))) } ∧
    (animate s).2 =
      ((s.bubbles.map moveBubble).filter
          (fun b => decide (b.position.y + b.radius ≤ 0))).map
        (fun _ => Signal.bubbleLeft)
        ++ (if ((s.bubbles.map moveBubble).filter
                  (fun b => decide (b.position.y + b.radius ≤ 0))) = [] then []
            else [Signal.bubblesRemaining
                (((s.bubbles.map moveBubble).filter
                    (fun b => decide (0 < b.position.y + b.radius))).length : ℤ)]) := by
  refine ⟨?_, ?_, ?_⟩
  · intro b
    simp [moveBubble, Bubble.mk.injEq, Pt.mk.injEq, sub_eq_add_neg]
  · simp only [animate, animateLoop_eq]
    rfl
  · simp only [animate, animateLoop_eq, not_keepBubble_funext]
    by_cases hr :
        (s.bubbles.map moveBubble).filter
          (fun b : Bubble => decide (b.position.y + b.radius ≤ 0)) = []
    · simp [hr]
    · simp only [hr, List.isEmpty_iff, if_neg, Bool.not_eq_true]
      by_cases he :
          ((s.bubbles.map moveBubble).filter
            (fun b : Bubble => decide (b.position.y + b.radius ≤ 0))).isEmpty
      · exact absurd (List.isEmpty_iff.mp he) hr
      · simp only [he, Bool.not_false, if_true, if_neg hr]
        rfl

/-- C10: every bubble surviving an animation tick keeps its horizontal
coordinate, radius, speed, colors and cached brush (only the vertical
coordinate changes), and the surviving collection is a sublist of the moved
original collection, so relative order (and hence paint layering) is stable. -/
theorem animate_survivors_spec (s : FieldState) :
    List.Sublist (animate s).1.bubbles (s.bubbles.map moveBubble) ∧
    ∀ b : Bubble,
      (moveBubble b).position.x = b.position.x ∧
      (moveBubble b).radius = b.radius ∧
      (moveBubble b).speed = b.speed ∧
      (moveBubble b).innerColor = b.innerColor ∧
      (moveBubble b).outerColor = b.outerColor ∧
      (moveBubble b).brush = b.brush := by
  constructor
  · have hb : (animate s).1.bubbles = (s.bubbles.map moveBubble).filter keepBubble := by
      simp only [animate, animateLoop_eq]
    rw [hb]
    exact List.filter_sublist _
  · intro b
    simp [moveBubble]

/-- C7: a paint event mutates no state, and its command list is the
background fill of the damage region followed by exactly the bubbles whose
bounding boxes intersect the region, in collection order, with the pending
bubble (when present) drawn last on top. -/
theorem paintEvent_spec (s : FieldState) (region : RectF) :
    (paintEvent s region).1 = s ∧
    (paintEvent s region).2 =
      PaintCmd.fillBackground region s.backgroundColor1 s.backgroundColor2 ::
        ((s.bubbles.filter (fun b => rectIntersects (boundingRect b) region)).map
            PaintCmd.drawBubble ++
          match s.newBubble with
          | some nb => [PaintCmd.drawBubble nb]
          | none => []) := by
  refine ⟨rfl, ?_⟩
  simp only [paintEvent, paintLoop_eq]

/-- One event step preserves the timer/pending coupling. -/
lemma step_preserves_timerInv (s : FieldState) (e : Event)
    (h : s.bubbleTimerRunning = s.newBubble.isSome) :
    (step s e).bubbleTimerRunning = (step s e).newBubble.isSome := by
  cases e with
  | press button pos dSpeed c1 c2 =>
      simp only [step, mousePressEvent]
      split
      · simp
      · exact h
  | move pos =>
      simp only [step, mouseMoveEvent]
      cases hnb : s.newBubble <;> simp_all
  | release =>
      simp only [step, mouseReleaseEvent]
      cases hnb : s.newBubble <;> simp_all
  | animationTick => simpa [animate, step] using h
  | growthTick =>
      simp only [step, expandBubble]
      cases hnb : s.newBubble <;> simp_all
  | setCount n draws => simpa [setBubbles, step] using h
  | setBg1 c => simpa [setColor1, step] using h
  | setBg2 c => simpa [setColor2, step] using h
  | startCmd => simpa [startAnimation, step] using h
  | stopCmd => simpa [stopAnimation, step] using h
  | resize wd ht => simpa [step] using h

/-- Event sequences preserve the timer/pending coupling. -/
lemma run_preserves_timerInv :
    ∀ (es : List Event) (s : FieldState),
      s.bubbleTimerRunning = s.newBubble.isSome →
      (run s es).bubbleTimerRunning = (run s es).newBubble.isSome := by
  intro es
  induction es with
  | nil => intro s h; exact h
  | cons e es ih =>
      intro s h
      exact ih _ (step_preserves_timerInv s e h)

/-- C9: in every state reachable from the initial state by press, move,
release, animation-tick, growth-tick, property-setter, start/stop and resize
events, the growth timer is running iff a pending bubble exists. -/
theorem growth_timer_iff_pending (bg1 bg2 : Color) (wd ht : ℚ) (es : List Event) :
    ((run (initState bg1 bg2 wd ht) es).bubbleTimerRunning = true ↔
      (run (initState bg1 bg2 wd ht) es).newBubble ≠ none) := by
  have h := run_preserves_timerInv es (initState bg1 bg2 wd ht) rfl
  rw [h]
  exact Option.isSome_iff_ne_none

/-- A concrete pending bubble used to instantiate proved properties. -/
def sampleBubble : Bubble := Bubble.create ⟨100, 50⟩ 4 2 whiteColor whiteColor

/-- A concrete 200×200 field with `sampleBubble` pending. -/
def sampleField : FieldState :=
  { bubbles := []
    newBubble := some sampleBubble
    bubbleTimerRunning := true
    animationTimerRunning := true
    backgroundColor1 := whiteColor
    backgroundColor2 := whiteColor
    width := 200
    height := 200 }

/-- C3: on a growth tick with a pending bubble, the pending radius becomes
`min(radius + 4.0, width/8, height/8)` — the fixed increment clamped to
one-eighth of the smaller current viewport dimension, read fresh from the
state at this tick — and the cached brush is recomputed from the new radius
in the same tick, all other bubble fields unchanged. -/
theorem expandBubble_tick_spec (s : FieldState) (nb : Bubble)
    (h : s.newBubble = some nb) :
    ∃ nb', (expandBubble s).newBubble = some nb' ∧
      nb'.radius = min (nb.radius + 4) (min (s.width / 8) (s.height / 8)) ∧
      min (s.width / 8) (s.height / 8) = min s.width s.height / 8 ∧
      nb'.brush = mkBrush nb.innerColor nb.outerColor nb'.radius ∧
      nb'.position = nb.position ∧ nb'.speed = nb.speed ∧
      nb'.innerColor = nb.innerColor ∧ nb'.outerColor = nb.outerColor := by
  refine ⟨({ nb with
      radius := min (min (nb.radius + 4) (s.width / 8)) (s.height / 8) }).updateBrush,
    ?_, ?_, ?_, ?_, ?_, ?_, ?_, ?_⟩
  · simp [expandBubble, h]
  · simp [Bubble.updateBrush, min_assoc]
  · exact min_div_div_right (by norm_num) s.width s.height
  · simp [Bubble.updateBrush]
  · simp [Bubble.updateBrush]
  · simp [Bubble.updateBrush]
  · simp [Bubble.updateBrush]
  · simp [Bubble.updateBrush]

/-- Instantiation of `expandBubble_tick_spec` on the concrete sample field. -/
theorem expandBubble_tick_spec_witness :
    sampleField.newBubble = some sampleBubble ∧
    (∃ nb', (expandBubble sampleField).newBubble = some nb' ∧
      nb'.radius =
        min (sampleBubble.radius + 4)
          (min (sampleField.width / 8) (sampleField.height / 8)) ∧
      min (sampleField.width / 8) (sampleField.height / 8) =
        min sampleField.width sampleField.height / 8 ∧
      nb'.brush = mkBrush sampleBubble.innerColor sampleBubble.outerColor nb'.radius ∧
      nb'.position = sampleBubble.position ∧ nb'.speed = sampleBubble.speed ∧
      nb'.innerColor = sampleBubble.innerColor ∧
      nb'.outerColor = sampleBubble.outerColor) :=
  ⟨rfl, expandBubble_tick_spec sampleField sampleBubble rfl⟩

/-- The sample field after one growth tick (radius grows 4 → 8). -/
def shrunkTick1 : FieldState := expandBubble sampleField

/-- A second growth tick taken after the viewport shrank to 40×40. -/
def shrunkTick2 : FieldState := expandBubble { shrunkTick1 with width := 40, height := 40 }

/-- Counterexample to C4 as stated: with the viewport allowed to change
between ticks, a shrink from 200×200 to 40×40 drops the cap to 5, and the
pending radius decreases from 8 to 5 — not monotonically non-decreasing. -/
theorem expandBubble_monotone_cex :
    shrunkTick1.newBubble.map Bubble.radius = some 8 ∧
    shrunkTick2.newBubble.map Bubble.radius = some 5 ∧ ¬ ((8 : ℚ) ≤ 5) := by
  refine ⟨?_, ?_, by norm_num⟩
  · simp only [shrunkTick1, sampleField, sampleBubble, expandBubble, Bubble.create,
      Bubble.updateBrush, Option.map_some]
    norm_num
  · simp only [shrunkTick2, shrunkTick1, sampleField, sampleBubble, expandBubble,
      Bubble.create, Bubble.updateBrush, Option.map_some]
    norm_num

/-- C4 amended: after every growth tick the pending radius is at most
`min(viewportWidth, viewportHeight)/8` as evaluated at that tick, and a tick
does not decrease the radius whenever the current radius is within that
tick's cap (so the radius is monotonically non-decreasing whenever the
viewport does not shrink below it mid-gesture). -/
theorem expandBubble_radius_bound (s : FieldState) (nb : Bubble)
    (h : s.newBubble = some nb) :
    ∃ nb', (expandBubble s).newBubble = some nb' ∧
      nb'.radius ≤ min s.width s.height / 8 ∧
      (nb.radius ≤ min s.width s.height / 8 → nb.radius ≤ nb'.radius) := by
  have hcap : min (s.width / 8) (s.height / 8) = min s.width s.height / 8 :=
    min_div_div_right (by norm_num) s.width s.height
  refine ⟨({ nb with
      radius := min (min (nb.radius + 4) (s.width / 8)) (s.height / 8) }).updateBrush,
    ?_, ?_, ?_⟩
  · simp [expandBubble, h]
  · rw [← hcap]
    simp only [Bubble.updateBrush]
    exact le_min (le_trans (min_le_left _ _) (min_le_right _ _)) (min_le_right _ _)
  · intro hr
    rw [← hcap] at hr
    simp only [Bubble.updateBrush]
    exact le_min (le_min (by linarith) (le_trans hr (min_le_left _ _)))
      (le_trans hr (min_le_right _ _))

/-- Instantiation of `expandBubble_radius_bound` on the concrete sample
field. -/
theorem expandBubble_radius_bound_witness :
    sampleField.newBubble = some sampleBubble ∧
    (∃ nb', (expandBubble sampleField).newBubble = some nb' ∧
      nb'.radius ≤ min sampleField.width sampleField.height / 8 ∧
      (sampleBubble.radius ≤ min sampleField.width sampleField.height / 8 →
        sampleBubble.radius ≤ nb'.radius)) :=
  ⟨rfl, expandBubble_radius_bound sampleField sampleBubble rfl⟩

/-- Concrete color draws of one half each, used to instantiate properties. -/
def halfColorDraws : ColorDraws := ⟨1/2, 1/2, 1/2, 1/2⟩

/-- Concrete per-bubble draws of one half each. -/
def halfDraws : Draws := ⟨1/2, 1/2, 1/2, 1/2, halfColorDraws, halfColorDraws⟩

/-- A concrete 200×200 field with no bubbles and no pending bubble. -/
def emptyField : FieldState := initState whiteColor whiteColor 200 200

/-- C5: a primary-button press with no pending bubble creates the pending
bubble at the press point with radius exactly 4.0 and a speed in `[1, 8)`,
and starts the growth timer, leaving all other state untouched; a press while
a pending bubble exists changes nothing at all. -/
theorem mousePressEvent_spec (s : FieldState) (pos : Pt) (dSpeed : ℚ)
    (c1 c2 : ColorDraws) (h0 : 0 ≤ dSpeed) (h1 : dSpeed < 1) :
    (s.newBubble = none →
      ∃ nb, mousePressEvent s MouseButton.left pos dSpeed c1 c2 =
          { s with newBubble := some nb, bubbleTimerRunning := true } ∧
        nb.position = pos ∧ nb.radius = 4 ∧ 1 ≤ nb.speed ∧ nb.speed < 8) ∧
    (s.newBubble ≠ none →
      mousePressEvent s MouseButton.left pos dSpeed c1 c2 = s) := by
  constructor
  · intro hn
    refine ⟨Bubble.create pos 4 (1 + dSpeed * 7) (randomColor c1) (randomColor c2),
      ?_, rfl, rfl, ?_, ?_⟩
    · simp [mousePressEvent, hn]
    · show (1 : ℚ) ≤ 1 + dSpeed * 7
      nlinarith
    · show (1 : ℚ) + dSpeed * 7 < 8
      nlinarith
  · intro hn
    simp [mousePressEvent, hn]

/-- Instantiation of `mousePressEvent_spec` on a concrete empty field. -/
theorem mousePressEvent_spec_witness :
    ((0 : ℚ) ≤ 1/2) ∧ ((1 : ℚ)/2 < 1) ∧
    ((emptyField.newBubble = none →
      ∃ nb, mousePressEvent emptyField MouseButton.left ⟨100, 50⟩ (1/2)
            halfColorDraws halfColorDraws =
          { emptyField with newBubble := some nb, bubbleTimerRunning := true } ∧
        nb.position = ⟨100, 50⟩ ∧ nb.radius = 4 ∧ 1 ≤ nb.speed ∧ nb.speed < 8) ∧
    (emptyField.newBubble ≠ none →
      mousePressEvent emptyField MouseButton.left ⟨100, 50⟩ (1/2)
        halfColorDraws halfColorDraws = emptyField)) :=
  ⟨by norm_num, by norm_num,
    mousePressEvent_spec emptyField ⟨100, 50⟩ (1/2) halfColorDraws halfColorDraws
      (by norm_num) (by norm_num)⟩

/-- C6: a release while a pending bubble exists appends it unmodified to the
end of the collection, clears the pending state, stops the growth timer and
emits `bubblesRemaining` with the new length (committed bubble included). -/
theorem mouseReleaseEvent_spec (s : FieldState) (nb : Bubble)
    (h : s.newBubble = some nb) :
    mouseReleaseEvent s =
      ({ s with bubbles := s.bubbles ++ [nb], newBubble := none, bubbleTimerRunning := false },
       [Signal.bubblesRemaining ((s.bubbles.length : ℤ) + 1)]) := by
  simp [mouseReleaseEvent, h]

/-- Instantiation of `mouseReleaseEvent_spec` on the concrete sample field. -/
theorem mouseReleaseEvent_spec_witness :
    sampleField.newBubble = some sampleBubble ∧
    mouseReleaseEvent sampleField =
      ({ sampleField with bubbles := sampleField.bubbles ++ [sampleBubble], newBubble := none, bubbleTimerRunning := false },
       [Signal.bubblesRemaining ((sampleField.bubbles.length : ℤ) + 1)]) :=
  ⟨rfl, mouseReleaseEvent_spec sampleField sampleBubble rfl⟩

/-- C8: calling the bubble-count setter with a negative target produces
exactly the same state and signals as calling it with 0. -/
theorem setBubbles_negative_eq_zero (s : FieldState) (n : ℤ) (hn : n < 0)
    (draws : ℕ → Draws) :
    setBubbles s n draws = setBubbles s 0 draws := by
  have h : max 0 n = (0 : ℤ) := max_eq_left hn.le
  simp [setBubbles, h]

/-- Instantiation of `setBubbles_negative_eq_zero` at target −3. -/
theorem setBubbles_negative_eq_zero_witness :
    ((-3 : ℤ) < 0) ∧
    setBubbles sampleField (-3) (fun _ => halfDraws) =
      setBubbles sampleField 0 (fun _ => halfDraws) :=
  ⟨by norm_num,
    setBubbles_negative_eq_zero sampleField (-3) (by norm_num) (fun _ => halfDraws)⟩

/-- The list of bubbles the `while` loop of `setBubbles` appends when it runs
`n` iterations starting at draw index `idx`. -/
def synthList (wd ht : ℚ) (draws : ℕ → Draws) : ℕ → ℕ → List Bubble
  | _, 0 => []
  | idx, n + 1 => mkRandomBubble wd ht (draws idx) :: synthList wd ht draws (idx + 1) n

/-- The loop appends exactly `n` bubbles when it runs `n` iterations. -/
lemma synthList_length (wd ht : ℚ) (draws : ℕ → Draws) :
    ∀ (n idx : ℕ), (synthList wd ht draws idx n).length = n := by
  intro n
  induction n with
  | zero => intro idx; rfl
  | succ n ih => intro idx; simp [synthList, ih]

/-- Every appended bubble is a `mkRandomBubble` of some draw record. -/
lemma synthList_mem (wd ht : ℚ) (draws : ℕ → Draws) :
    ∀ (n idx : ℕ) (b : Bubble), b ∈ synthList wd ht draws idx n →
      ∃ i, b = mkRandomBubble wd ht (draws i) := by
  intro n
  induction n with
  | zero => intro idx b hb; simp [synthList] at hb
  | succ n ih =>
      intro idx b hb
      simp only [synthList, List.mem_cons] at hb
      rcases hb with hb | hb
      · exact ⟨idx, hb⟩
      · exact ih (idx + 1) b hb

/-- Unfolding of the `while` loop: starting `n` short of the target appends
exactly the `n` synthesised bubbles in order. -/
lemma bubbleLoop_eq (wd ht : ℚ) (draws : ℕ → Draws) :
    ∀ (n idx : ℕ) (bs : List Bubble) (value : ℕ), value - bs.length = n →
      bubbleLoop wd ht draws idx bs value = bs ++ synthList wd ht draws idx n := by
  intro n
  induction n with
  | zero =>
      intro idx bs value hv
      rw [bubbleLoop, if_neg (by omega)]
      simp [synthList]
  | succ n ih =>
      intro idx bs value hv
      rw [bubbleLoop, if_pos (by omega)]
      rw [ih (idx + 1) (bs ++ [mkRandomBubble wd ht (draws idx)]) value
        (by simp only [List.length_append, List.length_cons, List.length_nil]; omega)]
      simp [synthList]

/-- Each synthesised bubble has radius in `[4, 24]`, speed in `[1, 8]` and
position inside `[0, wd] × [0, ht]` when its draws are valid. -/
lemma mkRandomBubble_bounds (wd ht : ℚ) (d : Draws) (hd : d.Valid)
    (hw : 0 ≤ wd) (hh : 0 ≤ ht) :
    4 ≤ (mkRandomBubble wd ht d).radius ∧ (mkRandomBubble wd ht d).radius ≤ 24 ∧
    1 ≤ (mkRandomBubble wd ht d).speed ∧ (mkRandomBubble wd ht d).speed ≤ 8 ∧
    0 ≤ (mkRandomBubble wd ht d).position.x ∧ (mkRandomBubble wd ht d).position.x ≤ wd ∧
    0 ≤ (mkRandomBubble wd ht d).position.y ∧ (mkRandomBubble wd ht d).position.y ≤ ht := by
  obtain ⟨hx0, hx1, hy0, hy1, hr0, hr1, hs0, hs1, _, _⟩ := hd
  simp only [mkRandomBubble, Bubble.create, Bubble.updateBrush]
  refine ⟨by nlinarith, by nlinarith, by nlinarith, by nlinarith, ?_, ?_, ?_, ?_⟩
  · exact mul_nonneg hx0 hw
  · nlinarith [mul_nonneg (by linarith : (0 : ℚ) ≤ 1 - d.dX) hw]
  · exact mul_nonneg hy0 hh
  · nlinarith [mul_nonneg (by linarith : (0 : ℚ) ≤ 1 - d.dY) hh]

/-- C2: setting the bubble count to `value` on a field holding `M` bubbles
always yields exactly `max 0 value` bubbles and emits `bubblesRemaining` with
that new count; if the clamped target is at most `M` the result is exactly
the first `max 0 value` original bubbles in order, and otherwise the first
`M` bubbles are unchanged while every synthesised bubble has radius in
`[4, 24]`, speed in `[1, 8]` and position within the viewport. -/
theorem setBubbles_spec (s : FieldState) (value : ℤ) (draws : ℕ → Draws)
    (hd : ∀ i, (draws i).Valid) (hw : 0 ≤ s.width) (hh : 0 ≤ s.height) :
    ((setBubbles s value draws).1.bubbles.length = (max 0 value).toNat) ∧
    ((setBubbles s value draws).2 = [Signal.bubblesRemaining (max 0 value)]) ∧
    ((max 0 value).toNat ≤ s.bubbles.length →
      (setBubbles s value draws).1.bubbles = s.bubbles.take (max 0 value).toNat) ∧
    (s.bubbles.length < (max 0 value).toNat →
      (setBubbles s value draws).1.bubbles.take s.bubbles.length = s.bubbles ∧
      ∀ b ∈ (setBubbles s value draws).1.bubbles.drop s.bubbles.length,
        4 ≤ b.radius ∧ b.radius ≤ 24 ∧ 1 ≤ b.speed ∧ b.speed ≤ 8 ∧
        0 ≤ b.position.x ∧ b.position.x ≤ s.width ∧
        0 ≤ b.position.y ∧ b.position.y ≤ s.height) := by
  have hloop := bubbleLoop_eq s.width s.height draws
    ((max 0 value).toNat - s.bubbles.length) 0 s.bubbles (max 0 value).toNat rfl
  have hbub : (setBubbles s value draws).1.bubbles =
      (s.bubbles ++ synthList s.width s.height draws 0
        ((max 0 value).toNat - s.bubbles.length)).take (max 0 value).toNat := by
    simp only [setBubbles]
    rw [hloop]
  have hslen := synthList_length s.width s.height draws
    ((max 0 value).toNat - s.bubbles.length) 0
  refine ⟨?_, rfl, ?_, ?_⟩
  · rw [hbub]
    simp only [List.length_take, List.length_append, hslen]
    omega
  · intro hle
    rw [hbub]
    have hz : (max 0 value).toNat - s.bubbles.length = 0 := by omega
    rw [hz]
    simp [synthList]
  · intro hlt
    have hfull : (s.bubbles ++ synthList s.width s.height draws 0
        ((max 0 value).toNat - s.bubbles.length)).take (max 0 value).toNat =
        s.bubbles ++ synthList s.width s.height draws 0
          ((max 0 value).toNat - s.bubbles.length) := by
      apply List.take_of_length_le
      simp only [List.length_append, hslen]
      omega
    rw [hbub, hfull]
    constructor
    · exact List.take_left ..
    · rw [List.drop_left ..]
      intro b hb
      obtain ⟨i, rfl⟩ := synthList_mem s.width s.height draws _ 0 b hb
      exact mkRandomBubble_bounds s.width s.height (draws i) (hd i) hw hh

/-- Instantiation of `setBubbles_spec`: five bubbles on the empty field. -/
theorem setBubbles_spec_witness :
    (∀ i : ℕ, ((fun _ => halfDraws) i : Draws).Valid) ∧ (0 : ℚ) ≤ emptyField.width ∧
    (0 : ℚ) ≤ emptyField.height ∧
    (((setBubbles emptyField 5 (fun _ => halfDraws)).1.bubbles.length =
        (max 0 5 : ℤ).toNat) ∧
    ((setBubbles emptyField 5 (fun _ => halfDraws)).2 =
        [Signal.bubblesRemaining (max 0 5)]) ∧
    ((max 0 5 : ℤ).toNat ≤ emptyField.bubbles.length →
      (setBubbles emptyField 5 (fun _ => halfDraws)).1.bubbles =
        emptyField.bubbles.take (max 0 5 : ℤ).toNat) ∧
    (emptyField.bubbles.length < (max 0 5 : ℤ).toNat →
      (setBubbles emptyField 5 (fun _ => halfDraws)).1.bubbles.take
          emptyField.bubbles.length = emptyField.bubbles ∧
      ∀ b ∈ (setBubbles emptyField 5 (fun _ => halfDraws)).1.bubbles.drop
          emptyField.bubbles.length,
        4 ≤ b.radius ∧ b.radius ≤ 24 ∧ 1 ≤ b.speed ∧ b.speed ≤ 8 ∧
        0 ≤ b.position.x ∧ b.position.x ≤ emptyField.width ∧
        0 ≤ b.position.y ∧ b.position.y ≤ emptyField.height)) :=
  ⟨fun _ => by norm_num [Draws.Valid, ColorDraws.Valid, halfDraws, halfColorDraws],
   by norm_num [emptyField, initState], by norm_num [emptyField, initState],
   setBubbles_spec emptyField 5 (fun _ => halfDraws)
     (fun _ => by norm_num [Draws.Valid, ColorDraws.Valid, halfDraws, halfColorDraws])
     (by norm_num [emptyField, initState]) (by norm_num [emptyField, initState])⟩
